import Mathlib

/-!
Verification of the heading extractor in
`extract_word_headings_with_chinese_comments.py`.

The core component (per the spec, §2–§4) maps an ordered sequence of
paragraph texts to a nested mapping of heading labels.  Document loading
(`docx.Document`) and JSON serialization are external collaborators and are
not modelled; `extract_headings` below is the core applied directly to the
sequence of paragraph text strings.

Strings are modelled as `List Char`.  Python `dict`s are modelled as
insertion-ordered association lists with `dict[k] = v` replacing in place
(`dictSet`) and `dict[k]` reads returning `Option` (`dictGet`); an uncaught
`KeyError` is modelled by the whole extraction returning `none`.
-/

namespace BKB

/-- Paragraph / label text, modelled as a list of characters. -/
abbrev Str := List Char

/-- Python's whitespace class: the characters stripped by `str.strip()` and
matched by `\s` in a Unicode-mode pattern (they coincide on this set). -/
def isPySpace (c : Char) : Bool :=
  c = ' ' || c = '\t' || c = '\n' || c = '\r' || c = '\u000b' || c = '\u000c' ||
  c = '\u001c' || c = '\u001d' || c = '\u001e' || c = '\u001f' ||
  c = '\u0085' || c = '\u00A0' || c = '\u1680' ||
  ('\u2000' ≤ c && c ≤ '\u200A') ||
  c = '\u2028' || c = '\u2029' || c = '\u202F' || c = '\u205F' || c = '\u3000'

/-- Python's `\d`.  In Unicode mode `\d` also matches non-ASCII decimal digits
(category Nd); we model the ASCII subset, which is what all heading numbers
in this development use, and on which every property proved here is
insensitive to the exact digit set (only disjointness from whitespace and
from `'.'` matters). -/
def isPyDigit (c : Char) : Bool := c.isDigit

/-- Python `str.strip()`: remove leading and trailing whitespace. -/
def pyStrip (s : Str) : Str :=
  ((s.dropWhile isPySpace).reverse.dropWhile isPySpace).reverse

/-- The text the group `(.+)` would have to cover from a fixed position for
`(.+)$` to succeed there: everything up to the end, minus a single trailing
newline that `$` may sit in front of. -/
def tailCore (r : Str) : Str :=
  if r.getLast? = some '\n' then r.dropLast else r

/-- The span `(.+)$` of the heading patterns, applied at a fixed position:
`.` matches any character except a newline, `(.+)` is a nonempty run, and
`$` matches at the end of the string or just before a single trailing
newline.  Returns the captured group. -/
def tailGroup (r : Str) : Option Str :=
  if tailCore r ≠ [] ∧ '\n' ∉ tailCore r then some (tailCore r) else none

/-- The span `\s*(.+)$`, entered after at least one whitespace character has
already been consumed by `\s+`.  Greedy: extend the whitespace run as far as
possible first, then fall back to shorter runs (the remaining whitespace is
absorbed by `(.+)` when it contains no newline). -/
def tailSearch : Str → Option Str
  | [] => none
  | c :: rest =>
    if isPySpace c then
      match tailSearch rest with
      | some g => some g
      | none => tailGroup (c :: rest)
    else tailGroup (c :: rest)

/-- The span `\s+(.+)$`: at least one whitespace character, then the rest. -/
def wsTail (r : Str) : Option Str :=
  match r with
  | [] => none
  | c :: rest => if isPySpace c then tailSearch rest else none

/-- The span `\d+` followed by something that is not a digit (the run is
maximal: stopping mid-run would put a digit where the pattern next requires
whitespace or a period, which fails).  Returns the remainder. -/
def dropDigits1 : Str → Option Str
  | [] => none
  | c :: rest => if isPyDigit c then some (rest.dropWhile isPyDigit) else none

/-- The literal `\.` of the level-2/3 patterns. -/
def dropDot : Str → Option Str
  | [] => none
  | c :: rest => if c = '.' then some rest else none

/-- `re.match(r"^\d+\s+(.+)$", s)`, returning `group(1)`. -/
def matchH1 (s : Str) : Option Str :=
  (dropDigits1 s).bind wsTail

/-- `re.match(r"^\d+\.\d+\s+(.+)$", s)`, returning `group(1)`. -/
def matchH2 (s : Str) : Option Str :=
  (dropDigits1 s).bind fun r1 =>
    (dropDot r1).bind fun r2 =>
      (dropDigits1 r2).bind wsTail

/-- `re.match(r"^\d+\.\d+\.\d+\s+(.+)$", s)`, returning `group(1)`. -/
def matchH3 (s : Str) : Option Str :=
  (dropDigits1 s).bind fun r1 =>
    (dropDot r1).bind fun r2 =>
      (dropDigits1 r2).bind fun r3 =>
        (dropDot r3).bind fun r4 =>
          (dropDigits1 r4).bind wsTail

/-- Python truthiness of an optional string: `None` and `""` are falsy. -/
def truthy : Option Str → Bool
  | none => false
  | some l => l ≠ []

/-- The innermost `{}` placeholder dictionaries (never populated). -/
abbrev D4 := List (Str × Unit)
/-- Dictionaries mapping level-3 labels to `{}`. -/
abbrev D3 := List (Str × D4)
/-- Dictionaries mapping level-2 labels to their level-3 children. -/
abbrev D2 := List (Str × D3)
/-- The top-level dictionary mapping level-1 labels to their children. -/
abbrev D1 := List (Str × D2)

instance : DecidableEq D3 := inferInstance

instance : DecidableEq D2 := inferInstance

instance : DecidableEq D1 := inferInstance

/-- `d[k] = v` on an insertion-ordered dictionary: replace in place if the
key is present, else append. -/
def dictSet {β : Type} : List (Str × β) → Str → β → List (Str × β)
  | [], k, v => [(k, v)]
  | (k', v') :: rest, k, v =>
    if k' = k then (k, v) :: rest else (k', v') :: dictSet rest k v

/-- `d[k]` read on a dictionary; `none` models a `KeyError`. -/
def dictGet {β : Type} : List (Str × β) → Str → Option β
  | [], _ => none
  | (k', v') :: rest, k => if k' = k then some v' else dictGet rest k

/-- The loop state of `extract_headings`: the dictionary under construction
plus `current_h1` and `current_h2`. -/
structure State where
  dict : D1
  h1 : Option Str
  h2 : Option Str

instance : DecidableEq State := fun s t =>
  decidable_of_iff (s.dict = t.dict ∧ s.h1 = t.h1 ∧ s.h2 = t.h2) (by
    cases s; cases t; simp)

/-- The initial state: `headings_dict = {}`, `current_h1, current_h2 = None, None`. -/
def initState : State := ⟨[], none, none⟩

/-- One iteration of the paragraph loop of `extract_headings`.  `none`
models an uncaught `KeyError` (a subscript read of an absent key while
evaluating the target of a nested assignment). -/
def stepP (s : State) (p : Str) : Option State :=
  let text := pyStrip p
  if text = [] then some s
  else
    match matchH1 text with
    | some l => some ⟨dictSet s.dict l [], some l, s.h2⟩
    | none =>
      match matchH2 text, truthy s.h1 with
      | some l, true =>
        match s.h1 with
        | some a =>
          match dictGet s.dict a with
          | some d => some ⟨dictSet s.dict a (dictSet d l []), some a, some l⟩
          | none => none
        | none => none
      | _, _ =>
        match matchH3 text, truthy s.h1 && truthy s.h2 with
        | some l, true =>
          match s.h1, s.h2 with
          | some a, some b =>
            match dictGet s.dict a with
            | some d =>
              match dictGet d b with
              | some e =>
                some ⟨dictSet s.dict a (dictSet d b (dictSet e l [])), some a, some b⟩
              | none => none
            | none => none
          | _, _ => none
        | _, _ => some s

/-- Run the paragraph loop from a given state; an exception aborts the run. -/
def runSteps : State → List Str → Option State
  | s, [] => some s
  | s, p :: ps =>
    match stepP s p with
    | some s' => runSteps s' ps
    | none => none

/-- `extract_headings`, applied to the ordered sequence of paragraph texts
(the document-loading collaborator is external, per the spec).  `none`
models the run terminating with an uncaught `KeyError`. -/
def extract_headings (paras : List Str) : Option D1 :=
  (runSteps initState paras).map State.dict

/-- Classification of a trimmed paragraph text by heading level. -/
inductive Classified where
  | h1 : Str → Classified
  | h2 : Str → Classified
  | h3 : Str → Classified
  | noHeading : Classified
deriving DecidableEq

/-- The classification implied by the code's `if`/`elif` chain: the three
patterns are tested in the fixed priority order H1, H2, H3 (the state guards
`current_h1`/`current_h2` are not part of pattern classification). -/
def classifyText (t : Str) : Classified :=
  match matchH1 t with
  | some l => .h1 l
  | none =>
    match matchH2 t with
    | some l => .h2 l
    | none =>
      match matchH3 t with
      | some l => .h3 l
      | none => .noHeading

/-- Modelled from the spec: the same classification with the patterns tested
in the opposite priority order (H3 first, then H2, then H1), used to express
that the classification result is independent of the testing order. -/
def classifyRevOrder (t : Str) : Classified :=
  match matchH3 t with
  | some l => .h3 l
  | none =>
    match matchH2 t with
    | some l => .h2 l
    | none =>
      match matchH1 t with
      | some l => .h1 l
      | none => .noHeading

/-- The label of the most recent paragraph whose stripped text matches the
level-1 pattern (`none` when there is no such paragraph). -/
def lastH1 : List Str → Option Str
  | [] => none
  | p :: ps =>
    match lastH1 ps with
    | some l => some l
    | none => matchH1 (pyStrip p)

/-- `true` unless the character at this edge of a label exists and is
whitespace. -/
def noEdgeSpace : Option Char → Bool
  | none => true
  | some c => !isPySpace c

/-- A well-formed label: nonempty, and neither its first nor its last
character is whitespace. -/
def goodLabel (l : Str) : Bool :=
  !l.isEmpty && noEdgeSpace l.head? && noEdgeSpace l.getLast?

/-! ### Basic facts about the pattern matchers -/

lemma matchH1_nil : matchH1 [] = none := rfl

lemma matchH2_nil : matchH2 [] = none := rfl

lemma matchH3_nil : matchH3 [] = none := rfl

lemma dot_not_space : isPySpace '.' = false := by decide

lemma wsTail_head {r g : Str} (h : wsTail r = some g) :
    ∃ c rest, r = c :: rest ∧ isPySpace c = true := by
  cases r with
  | nil => simp [wsTail] at h
  | cons c rest =>
    refine ⟨c, rest, rfl, ?_⟩
    cases hc : isPySpace c with
    | false => simp [wsTail, hc] at h
    | true => rfl

lemma dropDot_some {r r' : Str} (h : dropDot r = some r') : r = '.' :: r' := by
  cases r with
  | nil => simp [dropDot] at h
  | cons c rest =>
    by_cases hc : c = '.'
    · subst hc
      simp [dropDot] at h
      rw [h]
    · simp [dropDot, hc] at h

lemma dropDot_head_space {c : Char} {rest : Str} (hc : isPySpace c = true) :
    dropDot (c :: rest) = none := by
  have hne : c ≠ '.' := by
    rintro rfl
    rw [dot_not_space] at hc
    cases hc
  simp [dropDot, hne]

lemma wsTail_dot {r : Str} : wsTail ('.' :: r) = none := by
  simp [wsTail, dot_not_space]

lemma matchH2_eq_none_of_h1 {s l : Str} (h : matchH1 s = some l) : matchH2 s = none := by
  unfold matchH1 at h
  unfold matchH2
  cases e1 : dropDigits1 s with
  | none => rw [e1] at h; simp at h
  | some r1 =>
    rw [e1] at h
    simp only [Option.some_bind] at h ⊢
    obtain ⟨c, rest, rfl, hc⟩ := wsTail_head h
    rw [dropDot_head_space hc]
    rfl

lemma matchH3_eq_none_of_h1 {s l : Str} (h : matchH1 s = some l) : matchH3 s = none := by
  unfold matchH1 at h
  unfold matchH3
  cases e1 : dropDigits1 s with
  | none => rw [e1] at h; simp at h
  | some r1 =>
    rw [e1] at h
    simp only [Option.some_bind] at h ⊢
    obtain ⟨c, rest, rfl, hc⟩ := wsTail_head h
    rw [dropDot_head_space hc]
    rfl

lemma matchH1_eq_none_of_h2 {s l : Str} (h : matchH2 s = some l) : matchH1 s = none := by
  unfold matchH2 at h
  unfold matchH1
  cases e1 : dropDigits1 s with
  | none => rw [e1] at h; simp at h
  | some r1 =>
    rw [e1] at h
    simp only [Option.some_bind] at h ⊢
    cases e2 : dropDot r1 with
    | none => rw [e2] at h; simp at h
    | some r2 => rw [e2] at h; rw [dropDot_some e2]; exact wsTail_dot

lemma matchH3_eq_none_of_h2 {s l : Str} (h : matchH2 s = some l) : matchH3 s = none := by
  unfold matchH2 at h
  unfold matchH3
  cases e1 : dropDigits1 s with
  | none => rw [e1] at h; simp at h
  | some r1 =>
    rw [e1] at h
    simp only [Option.some_bind] at h ⊢
    cases e2 : dropDot r1 with
    | none => rw [e2] at h; simp at h
    | some r2 =>
      rw [e2] at h
      simp only [Option.some_bind] at h ⊢
      cases e3 : dropDigits1 r2 with
      | none => rw [e3] at h; simp at h
      | some r3 =>
        rw [e3] at h
        simp only [Option.some_bind] at h ⊢
        obtain ⟨c, rest, rfl, hc⟩ := wsTail_head h
        rw [dropDot_head_space hc]
        rfl

lemma matchH1_eq_none_of_h3 {s l : Str} (h : matchH3 s = some l) : matchH1 s = none := by
  unfold matchH3 at h
  unfold matchH1
  cases e1 : dropDigits1 s with
  | none => rw [e1] at h; simp at h
  | some r1 =>
    rw [e1] at h
    simp only [Option.some_bind] at h ⊢
    cases e2 : dropDot r1 with
    | none => rw [e2] at h; simp at h
    | some r2 => rw [e2] at h; rw [dropDot_some e2]; exact wsTail_dot

lemma matchH2_eq_none_of_h3 {s l : Str} (h : matchH3 s = some l) : matchH2 s = none := by
  unfold matchH3 at h
  unfold matchH2
  cases e1 : dropDigits1 s with
  | none => rw [e1] at h; simp at h
  | some r1 =>
    rw [e1] at h
    simp only [Option.some_bind] at h ⊢
    cases e2 : dropDot r1 with
    | none => rw [e2] at h; simp at h
    | some r2 =>
      rw [e2] at h
      simp only [Option.some_bind] at h ⊢
      cases e3 : dropDigits1 r2 with
      | none => rw [e3] at h; simp at h
      | some r3 =>
        rw [e3] at h
        simp only [Option.some_bind] at h ⊢
        cases e4 : dropDot r3 with
        | none => rw [e4] at h; simp at h
        | some r4 => rw [dropDot_some e4]; exact wsTail_dot

/-! ### Branch characterizations of one loop iteration -/

lemma truthy_some {o : Option Str} (h : truthy o = true) : ∃ a, o = some a ∧ a ≠ [] := by
  cases o with
  | none => simp [truthy] at h
  | some a =>
    refine ⟨a, rfl, ?_⟩
    simpa [truthy] using h

lemma stepP_blank {s : State} {p : Str} (h : pyStrip p = []) : stepP s p = some s := by
  simp [stepP, h]

lemma stepP_h1 {s : State} {p l : Str} (h : matchH1 (pyStrip p) = some l) :
    stepP s p = some ⟨dictSet s.dict l [], some l, s.h2⟩ := by
  have hne : pyStrip p ≠ [] := by
    intro e
    rw [e, matchH1_nil] at h
    cases h
  simp [stepP, hne, h]

lemma stepP_h2_acc {s : State} {p l a : Str} {d : D2}
    (hm : matchH2 (pyStrip p) = some l) (ha : s.h1 = some a) (hnea : a ≠ [])
    (hd : dictGet s.dict a = some d) :
    stepP s p = some ⟨dictSet s.dict a (dictSet d l []), some a, some l⟩ := by
  have h1 : matchH1 (pyStrip p) = none := matchH1_eq_none_of_h2 hm
  have hne : pyStrip p ≠ [] := by
    intro e
    rw [e, matchH2_nil] at hm
    cases hm
  have ht : truthy (some a) = true := by simp [truthy, hnea]
  simp [stepP, hne, h1, hm, ht, ha, hd]

lemma stepP_h2_err {s : State} {p l a : Str}
    (hm : matchH2 (pyStrip p) = some l) (ha : s.h1 = some a) (hnea : a ≠ [])
    (hd : dictGet s.dict a = none) : stepP s p = none := by
  have h1 : matchH1 (pyStrip p) = none := matchH1_eq_none_of_h2 hm
  have hne : pyStrip p ≠ [] := by
    intro e
    rw [e, matchH2_nil] at hm
    cases hm
  have ht : truthy (some a) = true := by simp [truthy, hnea]
  simp [stepP, hne, h1, hm, ht, ha, hd]

lemma stepP_h2_orphan {s : State} {p l : Str}
    (hm : matchH2 (pyStrip p) = some l) (ht : truthy s.h1 = false) :
    stepP s p = some s := by
  have h1 : matchH1 (pyStrip p) = none := matchH1_eq_none_of_h2 hm
  have h3 : matchH3 (pyStrip p) = none := matchH3_eq_none_of_h2 hm
  have hne : pyStrip p ≠ [] := by
    intro e
    rw [e, matchH2_nil] at hm
    cases hm
  simp [stepP, hne, h1, hm, ht, h3]

lemma stepP_h3_acc {s : State} {p l a b : Str} {d : D2} {e : D3}
    (hm : matchH3 (pyStrip p) = some l) (ha : s.h1 = some a) (hb : s.h2 = some b)
    (hnea : a ≠ []) (hneb : b ≠ [])
    (hd : dictGet s.dict a = some d) (he : dictGet d b = some e) :
    stepP s p = some ⟨dictSet s.dict a (dictSet d b (dictSet e l [])), some a, some b⟩ := by
  have h1 : matchH1 (pyStrip p) = none := matchH1_eq_none_of_h3 hm
  have h2 : matchH2 (pyStrip p) = none := matchH2_eq_none_of_h3 hm
  have hne : pyStrip p ≠ [] := by
    intro e
    rw [e, matchH3_nil] at hm
    cases hm
  have ht : (truthy (some a) && truthy (some b)) = true := by
    simp [truthy, hnea, hneb]
  simp [stepP, hne, h1, h2, hm, ht, ha, hb, hd, he]

lemma stepP_h3_errA {s : State} {p l a b : Str}
    (hm : matchH3 (pyStrip p) = some l) (ha : s.h1 = some a) (hb : s.h2 = some b)
    (hnea : a ≠ []) (hneb : b ≠ [])
    (hd : dictGet s.dict a = none) : stepP s p = none := by
  have h1 : matchH1 (pyStrip p) = none := matchH1_eq_none_of_h3 hm
  have h2 : matchH2 (pyStrip p) = none := matchH2_eq_none_of_h3 hm
  have hne : pyStrip p ≠ [] := by
    intro e
    rw [e, matchH3_nil] at hm
    cases hm
  have ht : (truthy (some a) && truthy (some b)) = true := by
    simp [truthy, hnea, hneb]
  simp [stepP, hne, h1, h2, hm, ht, ha, hb, hd]

lemma stepP_h3_errB {s : State} {p l a b : Str} {d : D2}
    (hm : matchH3 (pyStrip p) = some l) (ha : s.h1 = some a) (hb : s.h2 = some b)
    (hnea : a ≠ []) (hneb : b ≠ [])
    (hd : dictGet s.dict a = some d) (he : dictGet d b = none) : stepP s p = none := by
  have h1 : matchH1 (pyStrip p) = none := matchH1_eq_none_of_h3 hm
  have h2 : matchH2 (pyStrip p) = none := matchH2_eq_none_of_h3 hm
  have hne : pyStrip p ≠ [] := by
    intro e
    rw [e, matchH3_nil] at hm
    cases hm
  have ht : (truthy (some a) && truthy (some b)) = true := by
    simp [truthy, hnea, hneb]
  simp [stepP, hne, h1, h2, hm, ht, ha, hb, hd, he]

lemma stepP_h3_orphan {s : State} {p l : Str}
    (hm : matchH3 (pyStrip p) = some l) (ht : (truthy s.h1 && truthy s.h2) = false) :
    stepP s p = some s := by
  have h1 : matchH1 (pyStrip p) = none := matchH1_eq_none_of_h3 hm
  have h2 : matchH2 (pyStrip p) = none := matchH2_eq_none_of_h3 hm
  have hne : pyStrip p ≠ [] := by
    intro e
    rw [e, matchH3_nil] at hm
    cases hm
  simp [stepP, hne, h1, h2, hm, ht]

lemma stepP_noMatch {s : State} {p : Str} (h1 : matchH1 (pyStrip p) = none)
    (h2 : matchH2 (pyStrip p) = none) (h3 : matchH3 (pyStrip p) = none) :
    stepP s p = some s := by
  by_cases e : pyStrip p = []
  · exact stepP_blank e
  · simp [stepP, e, h1, h2, h3]

lemma stepP_h1none {s : State} {p : Str} (hs : s.h1 = none)
    (h1 : matchH1 (pyStrip p) = none) : stepP s p = some s := by
  have ht : truthy s.h1 = false := by simp [hs, truthy]
  cases e2 : matchH2 (pyStrip p) with
  | some l => exact stepP_h2_orphan e2 ht
  | none =>
    cases e3 : matchH3 (pyStrip p) with
    | some l =>
      exact stepP_h3_orphan e3 (by rw [ht, Bool.false_and])
    | none => exact stepP_noMatch h1 e2 e3

/-! ### Facts about whole runs -/

lemma runSteps_append (s : State) (xs ys : List Str) :
    runSteps s (xs ++ ys) = (runSteps s xs).bind fun t => runSteps t ys := by
  induction xs generalizing s with
  | nil => simp [runSteps]
  | cons p ps ih =>
    simp only [List.cons_append, runSteps]
    cases e : stepP s p with
    | some s1 => simp [ih]
    | none => simp

lemma stepP_h1_update {s0 s1 : State} {p : Str} (h : stepP s0 p = some s1) :
    s1.h1 = match matchH1 (pyStrip p) with
            | some l => some l
            | none => s0.h1 := by
  by_cases hb : pyStrip p = []
  · rw [stepP_blank hb] at h
    cases h
    rw [hb, matchH1_nil]
  · cases e1 : matchH1 (pyStrip p) with
    | some l =>
      rw [stepP_h1 e1] at h
      cases h
      rfl
    | none =>
      suffices hs : s1 = s0 ∨ s1.h1 = s0.h1 by
        rcases hs with rfl | hs
        · simp
        · simp [hs]
      cases e2 : matchH2 (pyStrip p) with
      | some l =>
        cases ht : truthy s0.h1 with
        | false =>
          rw [stepP_h2_orphan e2 ht] at h
          cases h
          exact Or.inl rfl
        | true =>
          obtain ⟨a, ha, hnea⟩ := truthy_some ht
          cases hd : dictGet s0.dict a with
          | some d =>
            rw [stepP_h2_acc e2 ha hnea hd] at h
            cases h
            right
            simp [ha]
          | none =>
            rw [stepP_h2_err e2 ha hnea hd] at h
            cases h
      | none =>
        cases e3 : matchH3 (pyStrip p) with
        | some l =>
          cases ht : (truthy s0.h1 && truthy s0.h2) with
          | false =>
            rw [stepP_h3_orphan e3 ht] at h
            cases h
            exact Or.inl rfl
          | true =>
            rw [Bool.and_eq_true] at ht
            obtain ⟨a, ha, hnea⟩ := truthy_some ht.1
            obtain ⟨b, hb2, hneb⟩ := truthy_some ht.2
            cases hd : dictGet s0.dict a with
            | some d =>
              cases he : dictGet d b with
              | some e =>
                rw [stepP_h3_acc e3 ha hb2 hnea hneb hd he] at h
                cases h
                right
                simp [ha]
              | none =>
                rw [stepP_h3_errB e3 ha hb2 hnea hneb hd he] at h
                cases h
            | none =>
              rw [stepP_h3_errA e3 ha hb2 hnea hneb hd] at h
              cases h
        | none =>
          rw [stepP_noMatch e1 e2 e3] at h
          cases h
          exact Or.inl rfl

lemma runSteps_h1_track {ps : List Str} {s0 s : State} (h : runSteps s0 ps = some s) :
    s.h1 = match lastH1 ps with
           | some l => some l
           | none => s0.h1 := by
  induction ps generalizing s0 with
  | nil =>
    cases h
    rw [lastH1]
  | cons p ps ih =>
    rw [runSteps] at h
    cases e : stepP s0 p with
    | none => rw [e] at h; cases h
    | some s1 =>
      rw [e] at h
      have h1 := ih h
      rw [lastH1]
      cases el : lastH1 ps with
      | some l => rw [el] at h1; exact h1
      | none =>
        rw [el] at h1
        rw [h1, stepP_h1_update e]

/-! ### Dictionary lemmas -/

lemma dictGet_dictSet_self {β : Type} (d : List (Str × β)) (k : Str) (v : β) :
    dictGet (dictSet d k v) k = some v := by
  induction d with
  | nil => simp [dictSet, dictGet]
  | cons kv rest ih =>
    obtain ⟨k1, v1⟩ := kv
    by_cases hk : k1 = k
    · simp [dictSet, dictGet, hk]
    · simp [dictSet, dictGet, hk, ih]

lemma dictGet_mem {β : Type} {d : List (Str × β)} {k : Str} {v : β}
    (h : dictGet d k = some v) : (k, v) ∈ d := by
  induction d with
  | nil => simp [dictGet] at h
  | cons kv rest ih =>
    obtain ⟨k1, v1⟩ := kv
    by_cases hk : k1 = k
    · subst hk
      simp [dictGet] at h
      simp [h]
    · simp [dictGet, hk] at h
      exact List.mem_cons_of_mem _ (ih h)

lemma mem_dictSet {β : Type} {d : List (Str × β)} {k : Str} {v : β} {kv : Str × β}
    (h : kv ∈ dictSet d k v) : kv = (k, v) ∨ kv ∈ d := by
  induction d with
  | nil => simp [dictSet] at h; simp [h]
  | cons kv1 rest ih =>
    obtain ⟨k1, v1⟩ := kv1
    by_cases hk : k1 = k
    · simp [dictSet, hk] at h
      rcases h with rfl | h
      · exact Or.inl rfl
      · exact Or.inr (List.mem_cons_of_mem _ h)
    · simp only [dictSet, if_neg hk, List.mem_cons] at h
      rcases h with rfl | h
      · exact Or.inr (List.mem_cons_self _ _)
      · rcases ih h with h1 | h1
        · exact Or.inl h1
        · exact Or.inr (List.mem_cons_of_mem _ h1)

lemma runSteps_filterBlank (ps : List Str) :
    ∀ s : State, runSteps s (ps.filter fun p => !(pyStrip p).isEmpty) = runSteps s ps := by
  induction ps with
  | nil => intro s; rfl
  | cons p ps ih =>
    intro s
    by_cases hb : pyStrip p = []
    · have hpred : (pyStrip p).isEmpty = true := by rw [hb]; rfl
      rw [List.filter_cons]
      simp only [hpred, Bool.not_true, Bool.false_eq_true, if_false]
      rw [ih s]
      simp [runSteps, stepP_blank hb]
    · have hpred : (pyStrip p).isEmpty = false := by
        cases e : pyStrip p with
        | nil => exact absurd e hb
        | cons c t => rfl
      rw [List.filter_cons]
      simp only [hpred, Bool.not_false, if_true]
      simp only [runSteps]
      cases est : stepP s p with
      | some s1 => simp [ih]
      | none => rfl

lemma runSteps_noH1 {pre : List Str} (hpre : ∀ q ∈ pre, matchH1 (pyStrip q) = none) :
    runSteps initState pre = some initState := by
  induction pre with
  | nil => rfl
  | cons p ps ih =>
    have h0 : (initState : State).h1 = none := rfl
    simp only [runSteps, stepP_h1none h0 (hpre p (List.mem_cons_self p ps))]
    exact ih fun q hq => hpre q (List.mem_cons_of_mem _ hq)

lemma runSteps_skipAll {ps : List Str}
    (h : ∀ p ∈ ps, matchH1 (pyStrip p) = none ∧ matchH2 (pyStrip p) = none ∧
      matchH3 (pyStrip p) = none) :
    ∀ s : State, runSteps s ps = some s := by
  induction ps with
  | nil => intro s; rfl
  | cons p ps ih =>
    intro s
    obtain ⟨h1, h2, h3⟩ := h p (List.mem_cons_self p ps)
    simp only [runSteps, stepP_noMatch h1 h2 h3]
    exact ih (fun q hq => h q (List.mem_cons_of_mem _ hq)) s

/-! ### Well-formedness of captured labels -/

lemma newline_is_space : isPySpace '\n' = true := by decide

lemma mem_of_getLastEq {l : Str} {c : Char} (h : l.getLast? = some c) : c ∈ l := by
  induction l with
  | nil => cases h
  | cons a t ih =>
    cases t with
    | nil =>
      rw [List.getLast?_singleton] at h
      cases h
      simp
    | cons b t2 =>
      rw [List.getLast?_cons_cons] at h
      exact List.mem_cons_of_mem _ (ih h)

lemma head_dropWhile_false {q : Char → Bool} {l : Str} {c : Char}
    (h : (List.dropWhile q l).head? = some c) : q c = false := by
  induction l with
  | nil => cases h
  | cons a t ih =>
    rw [List.dropWhile_cons] at h
    by_cases hq : q a = true
    · rw [if_pos hq] at h
      exact ih h
    · rw [if_neg hq] at h
      rw [List.head?_cons] at h
      cases h
      exact Bool.eq_false_iff.mpr hq

lemma getLast?_of_suffix {l1 l2 : Str} (h : l2 <:+ l1) (hne : l2 ≠ []) :
    l1.getLast? = l2.getLast? := by
  obtain ⟨t, rfl⟩ := h
  rw [List.getLast?_append]
  cases e : l2.getLast? with
  | none => exact absurd (List.getLast?_eq_none_iff.mp e) hne
  | some c => rfl

lemma pyStrip_getLast {s : Str} {c : Char} (h : (pyStrip s).getLast? = some c) :
    isPySpace c = false := by
  rw [pyStrip, List.getLast?_reverse] at h
  exact head_dropWhile_false h

lemma tailCore_eq {r : Str} (hg : r.getLast? ≠ some '\n') : tailCore r = r := by
  rw [tailCore, if_neg hg]

lemma tailGroup_eq_of_no_newline {r : Str} (hne : r ≠ []) (hnl : '\n' ∉ r) :
    tailGroup r = some r := by
  have hg : r.getLast? ≠ some '\n' := fun e => hnl (mem_of_getLastEq e)
  rw [tailGroup, tailCore_eq hg, if_pos ⟨hne, hnl⟩]

lemma tailGroup_some_spec {r g : Str} (hg : r.getLast? ≠ some '\n')
    (h : tailGroup r = some g) : g = r ∧ '\n' ∉ r := by
  rw [tailGroup, tailCore_eq hg] at h
  by_cases hc : r ≠ [] ∧ '\n' ∉ r
  · rw [if_pos hc] at h
    cases h
    exact ⟨rfl, hc.2⟩
  · rw [if_neg hc] at h
    cases h

lemma getLast_not_newline {r : Str}
    (hlast : ∀ c, r.getLast? = some c → isPySpace c = false) :
    r.getLast? ≠ some '\n' := by
  intro e
  have h1 := hlast '\n' e
  rw [newline_is_space] at h1
  cases h1

lemma tailSearch_isSome {r : Str} (hne : r ≠ []) (hnl : '\n' ∉ r) :
    (tailSearch r).isSome = true := by
  cases r with
  | nil => exact absurd rfl hne
  | cons c rest =>
    rw [tailSearch]
    by_cases hc : isPySpace c = true
    · rw [if_pos hc]
      cases e : tailSearch rest with
      | some g => rfl
      | none =>
        rw [tailGroup_eq_of_no_newline (List.cons_ne_nil c rest) hnl]
        rfl
    · rw [if_neg hc, tailGroup_eq_of_no_newline (List.cons_ne_nil c rest) hnl]
      rfl

lemma tailSearch_good {r : Str} :
    ∀ {g : Str}, (∀ c, r.getLast? = some c → isPySpace c = false) →
      tailSearch r = some g →
      g ≠ [] ∧ (∀ c, g.head? = some c → isPySpace c = false) ∧ g.getLast? = r.getLast? := by
  induction r with
  | nil => intro g _ h; cases h
  | cons c rest ih =>
    intro g hlast h
    rw [tailSearch] at h
    have hgnl : (c :: rest).getLast? ≠ some '\n' := getLast_not_newline hlast
    by_cases hc : isPySpace c = true
    · rw [if_pos hc] at h
      cases e : tailSearch rest with
      | some g1 =>
        rw [e] at h
        cases h
        have hrne : rest ≠ [] := by
          rintro rfl
          cases e
        obtain ⟨d, t, rfl⟩ : ∃ d t, rest = d :: t := by
          cases rest with
          | nil => exact absurd rfl hrne
          | cons d t => exact ⟨d, t, rfl⟩
        have hlast' : ∀ c0, (d :: t).getLast? = some c0 → isPySpace c0 = false := by
          intro c0 hc0
          exact hlast c0 (by rw [List.getLast?_cons_cons]; exact hc0)
        obtain ⟨hg1, hg2, hg3⟩ := ih hlast' e
        exact ⟨hg1, hg2, by rw [hg3, List.getLast?_cons_cons]⟩
      | none =>
        rw [e] at h
        obtain ⟨rfl, hnl⟩ := tailGroup_some_spec hgnl h
        have hrne : rest ≠ [] := by
          rintro rfl
          have := hlast c (List.getLast?_singleton c)
          rw [hc] at this
          cases this
        have hnlr : '\n' ∉ rest := fun hm => hnl (List.mem_cons_of_mem _ hm)
        have := tailSearch_isSome hrne hnlr
        rw [e] at this
        cases this
    · rw [if_neg hc] at h
      obtain ⟨rfl, hnl⟩ := tailGroup_some_spec hgnl h
      refine ⟨List.cons_ne_nil c rest, ?_, rfl⟩
      intro c0 hc0
      rw [List.head?_cons] at hc0
      cases hc0
      exact Bool.eq_false_iff.mpr hc

lemma goodLabel_of {l : Str} (hne : l ≠ [])
    (hh : ∀ c, l.head? = some c → isPySpace c = false)
    (hl : ∀ c, l.getLast? = some c → isPySpace c = false) : goodLabel l = true := by
  cases l with
  | nil => exact absurd rfl hne
  | cons c t =>
    have h1 : isPySpace c = false := hh c (List.head?_cons)
    have h2 : ∃ d, (c :: t).getLast? = some d := by
      cases e : (c :: t).getLast? with
      | none => exact absurd (List.getLast?_eq_none_iff.mp e) (List.cons_ne_nil c t)
      | some d => exact ⟨d, rfl⟩
    obtain ⟨d, hd⟩ := h2
    have h3 : isPySpace d = false := hl d hd
    rw [goodLabel]
    simp [noEdgeSpace, List.head?_cons, hd, h1, h3]

lemma wsTail_good {r g : Str}
    (hlast : ∀ c, r.getLast? = some c → isPySpace c = false)
    (h : wsTail r = some g) : goodLabel g = true ∧ g.getLast? = r.getLast? := by
  obtain ⟨c, rest, rfl, hc⟩ := wsTail_head h
  rw [wsTail, if_pos hc] at h
  have hrne : rest ≠ [] := by
    rintro rfl
    cases h
  obtain ⟨d, t, rfl⟩ : ∃ d t, rest = d :: t := by
    cases rest with
    | nil => exact absurd rfl hrne
    | cons d t => exact ⟨d, t, rfl⟩
  have hlast' : ∀ c0, (d :: t).getLast? = some c0 → isPySpace c0 = false := by
    intro c0 hc0
    exact hlast c0 (by rw [List.getLast?_cons_cons]; exact hc0)
  obtain ⟨hg1, hg2, hg3⟩ := tailSearch_good hlast' h
  have hgl : g.getLast? = (c :: d :: t).getLast? := by
    rw [hg3, List.getLast?_cons_cons]
  refine ⟨goodLabel_of hg1 hg2 ?_, hgl⟩
  intro c0 hc0
  rw [hgl] at hc0
  exact hlast c0 hc0

lemma suffix_dropDigits1 {t r : Str} (h : dropDigits1 t = some r) : r <:+ t := by
  cases t with
  | nil => cases h
  | cons c rest =>
    rw [dropDigits1] at h
    by_cases hc : isPyDigit c = true
    · rw [if_pos hc] at h
      cases h
      exact (List.dropWhile_suffix isPyDigit).trans (List.suffix_cons c rest)
    · rw [if_neg hc] at h
      cases h

lemma suffix_dropDot {t r : Str} (h : dropDot t = some r) : r <:+ t := by
  rw [dropDot_some h]
  exact List.suffix_cons '.' r

lemma match_good_aux {t r1 l : Str}
    (hlast : ∀ c, t.getLast? = some c → isPySpace c = false)
    (hsuf : r1 <:+ t) (h : wsTail r1 = some l) : goodLabel l = true := by
  obtain ⟨c, rest, rfl, hc⟩ := wsTail_head h
  have hgl : t.getLast? = (c :: rest).getLast? :=
    getLast?_of_suffix hsuf (List.cons_ne_nil c rest)
  have hlast' : ∀ c0, (c :: rest).getLast? = some c0 → isPySpace c0 = false := by
    intro c0 hc0
    exact hlast c0 (by rw [hgl]; exact hc0)
  exact (wsTail_good hlast' h).1

lemma matchH1_good {t l : Str}
    (hlast : ∀ c, t.getLast? = some c → isPySpace c = false)
    (h : matchH1 t = some l) : goodLabel l = true := by
  rw [matchH1] at h
  cases e1 : dropDigits1 t with
  | none => rw [e1] at h; cases h
  | some r1 =>
    rw [e1] at h
    simp only [Option.some_bind] at h
    exact match_good_aux hlast (suffix_dropDigits1 e1) h

lemma matchH2_good {t l : Str}
    (hlast : ∀ c, t.getLast? = some c → isPySpace c = false)
    (h : matchH2 t = some l) : goodLabel l = true := by
  rw [matchH2] at h
  cases e1 : dropDigits1 t with
  | none => rw [e1] at h; cases h
  | some r1 =>
    rw [e1] at h
    simp only [Option.some_bind] at h
    cases e2 : dropDot r1 with
    | none => rw [e2] at h; cases h
    | some r2 =>
      rw [e2] at h
      simp only [Option.some_bind] at h
      cases e3 : dropDigits1 r2 with
      | none => rw [e3] at h; cases h
      | some r3 =>
        rw [e3] at h
        simp only [Option.some_bind] at h
        have hsuf : r3 <:+ t :=
          ((suffix_dropDigits1 e3).trans (suffix_dropDot e2)).trans (suffix_dropDigits1 e1)
        exact match_good_aux hlast hsuf h

lemma matchH3_good {t l : Str}
    (hlast : ∀ c, t.getLast? = some c → isPySpace c = false)
    (h : matchH3 t = some l) : goodLabel l = true := by
  rw [matchH3] at h
  cases e1 : dropDigits1 t with
  | none => rw [e1] at h; cases h
  | some r1 =>
    rw [e1] at h
    simp only [Option.some_bind] at h
    cases e2 : dropDot r1 with
    | none => rw [e2] at h; cases h
    | some r2 =>
      rw [e2] at h
      simp only [Option.some_bind] at h
      cases e3 : dropDigits1 r2 with
      | none => rw [e3] at h; cases h
      | some r3 =>
        rw [e3] at h
        simp only [Option.some_bind] at h
        cases e4 : dropDot r3 with
        | none => rw [e4] at h; cases h
        | some r4 =>
          rw [e4] at h
          simp only [Option.some_bind] at h
          cases e5 : dropDigits1 r4 with
          | none => rw [e5] at h; cases h
          | some r5 =>
            rw [e5] at h
            simp only [Option.some_bind] at h
            have hsuf : r5 <:+ t :=
              ((((suffix_dropDigits1 e5).trans (suffix_dropDot e4)).trans
                (suffix_dropDigits1 e3)).trans (suffix_dropDot e2)).trans
                (suffix_dropDigits1 e1)
            exact match_good_aux hlast hsuf h

/-- All level-3 keys of a `D3` dictionary are well-formed labels. -/
def GoodD3 (d : D3) : Prop := ∀ kv ∈ d, goodLabel kv.1 = true

/-- All level-2 keys and, recursively, level-3 keys are well-formed labels. -/
def GoodD2 (d : D2) : Prop := ∀ kv ∈ d, goodLabel kv.1 = true ∧ GoodD3 kv.2

/-- All keys at every level of the heading tree are well-formed labels. -/
def GoodD1 (d : D1) : Prop := ∀ kv ∈ d, goodLabel kv.1 = true ∧ GoodD2 kv.2

lemma GoodD3_nil : GoodD3 [] := by
  intro kv hkv
  cases hkv

lemma GoodD2_nil : GoodD2 [] := by
  intro kv hkv
  cases hkv

lemma GoodD3_set {d : D3} {k : Str} {v : D4} (h : GoodD3 d) (hk : goodLabel k = true) :
    GoodD3 (dictSet d k v) := by
  intro kv hkv
  rcases mem_dictSet hkv with rfl | hm
  · exact hk
  · exact h kv hm

lemma GoodD2_set {d : D2} {k : Str} {v : D3} (h : GoodD2 d) (hk : goodLabel k = true)
    (hv : GoodD3 v) : GoodD2 (dictSet d k v) := by
  intro kv hkv
  rcases mem_dictSet hkv with rfl | hm
  · exact ⟨hk, hv⟩
  · exact h kv hm

lemma GoodD1_set {d : D1} {k : Str} {v : D2} (h : GoodD1 d) (hk : goodLabel k = true)
    (hv : GoodD2 v) : GoodD1 (dictSet d k v) := by
  intro kv hkv
  rcases mem_dictSet hkv with rfl | hm
  · exact ⟨hk, hv⟩
  · exact h kv hm

lemma stepP_good {s s1 : State} {p : Str} (hg : GoodD1 s.dict)
    (h : stepP s p = some s1) : GoodD1 s1.dict := by
  have hlast : ∀ c, (pyStrip p).getLast? = some c → isPySpace c = false :=
    fun c hc => pyStrip_getLast hc
  by_cases hb : pyStrip p = []
  · rw [stepP_blank hb] at h
    cases h
    exact hg
  · cases e1 : matchH1 (pyStrip p) with
    | some l =>
      rw [stepP_h1 e1] at h
      cases h
      exact GoodD1_set hg (matchH1_good hlast e1) GoodD2_nil
    | none =>
      cases e2 : matchH2 (pyStrip p) with
      | some l =>
        cases ht : truthy s.h1 with
        | false =>
          rw [stepP_h2_orphan e2 ht] at h
          cases h
          exact hg
        | true =>
          obtain ⟨a, ha, hnea⟩ := truthy_some ht
          cases hd : dictGet s.dict a with
          | some d =>
            rw [stepP_h2_acc e2 ha hnea hd] at h
            cases h
            obtain ⟨hka, hva⟩ := hg (a, d) (dictGet_mem hd)
            exact GoodD1_set hg hka (GoodD2_set hva (matchH2_good hlast e2) GoodD3_nil)
          | none =>
            rw [stepP_h2_err e2 ha hnea hd] at h
            cases h
      | none =>
        cases e3 : matchH3 (pyStrip p) with
        | some l =>
          cases ht : (truthy s.h1 && truthy s.h2) with
          | false =>
            rw [stepP_h3_orphan e3 ht] at h
            cases h
            exact hg
          | true =>
            rw [Bool.and_eq_true] at ht
            obtain ⟨a, ha, hnea⟩ := truthy_some ht.1
            obtain ⟨b, hb2, hneb⟩ := truthy_some ht.2
            cases hd : dictGet s.dict a with
            | some d =>
              cases he : dictGet d b with
              | some e =>
                rw [stepP_h3_acc e3 ha hb2 hnea hneb hd he] at h
                cases h
                obtain ⟨hka, hva⟩ := hg (a, d) (dictGet_mem hd)
                obtain ⟨hkb, hvb⟩ := hva (b, e) (dictGet_mem he)
                exact GoodD1_set hg hka
                  (GoodD2_set hva hkb (GoodD3_set hvb (matchH3_good hlast e3)))
              | none =>
                rw [stepP_h3_errB e3 ha hb2 hnea hneb hd he] at h
                cases h
            | none =>
              rw [stepP_h3_errA e3 ha hb2 hnea hneb hd] at h
              cases h
        | none =>
          rw [stepP_noMatch e1 e2 e3] at h
          cases h
          exact hg

lemma runSteps_good {ps : List Str} :
    ∀ {s s1 : State}, GoodD1 s.dict → runSteps s ps = some s1 → GoodD1 s1.dict := by
  induction ps with
  | nil =>
    intro s s1 hg h
    cases h
    exact hg
  | cons p ps ih =>
    intro s s1 hg h
    rw [runSteps] at h
    cases e : stepP s p with
    | none => rw [e] at h; cases h
    | some s2 =>
      rw [e] at h
      exact ih (stepP_good hg e) h

/-! ### Claim theorems -/

/-- C1: the spec states the extractor never raises and silently skips every
non-matching or out-of-order paragraph, including a level-3 heading met while
the current level-2 label is carried over from a previous level-1 section.
The code does not satisfy this: on the paragraphs `"1 A"`, `"1.1 B"`,
`"2 C"`, `"1.1.1 D"` the final level-3 heading finds `current_h1 = "C"`,
`current_h2 = "B"` (stale) and the nested assignment reads
`headings_dict["C"]["B"]`, which raises `KeyError` because
`headings_dict["C"]` is empty; the run aborts (modelled by `none`). -/
theorem stale_h2_keyerror :
    extract_headings ["1 A".toList, "1.1 B".toList, "2 C".toList, "1.1.1 D".toList]
      = none := by decide

/-- C2: a level-2 entry is only ever inserted under the current (most recently
seen) level-1 label, a level-3 entry only under the current level-1/level-2
labels, an orphan level-2 heading (no level-1 seen) and an orphan level-3
heading (no level-1 or no level-2 seen) are dropped with no state change, and
after any successful run the current level-1 label is the label of the most
recent level-1-matching paragraph. -/
theorem insertion_under_current_ancestors :
    (∀ (s : State) (p l : Str), matchH2 (pyStrip p) = some l →
      (s.h1 = none → stepP s p = some s) ∧
      (∀ a d, s.h1 = some a → a ≠ [] → dictGet s.dict a = some d →
        stepP s p = some ⟨dictSet s.dict a (dictSet d l []), some a, some l⟩))
  ∧ (∀ (s : State) (p l : Str), matchH3 (pyStrip p) = some l →
      ((s.h1 = none ∨ s.h2 = none) → stepP s p = some s) ∧
      (∀ a b d e, s.h1 = some a → s.h2 = some b → a ≠ [] → b ≠ [] →
        dictGet s.dict a = some d → dictGet d b = some e →
        stepP s p = some ⟨dictSet s.dict a (dictSet d b (dictSet e l [])), some a, some b⟩))
  ∧ (∀ (ps : List Str) (s : State), runSteps initState ps = some s → s.h1 = lastH1 ps) := by
  refine ⟨?_, ?_, ?_⟩
  · intro s p l hm
    constructor
    · intro h1
      exact stepP_h2_orphan hm (by simp [h1, truthy])
    · intro a d ha hnea hd
      exact stepP_h2_acc hm ha hnea hd
  · intro s p l hm
    constructor
    · intro h12
      apply stepP_h3_orphan hm
      rcases h12 with h1 | h2
      · simp [h1, truthy]
      · simp [h2, truthy]
    · intro a b d e ha hb hnea hneb hd he
      exact stepP_h3_acc hm ha hb hnea hneb hd he
  · intro ps s h
    rw [runSteps_h1_track h]
    cases e : lastH1 ps <;> rfl

/-- Witness for C2 at concrete inputs: an orphan `"1.1 X"` is dropped from
the initial state, `"1.1 B"` is inserted under the current level-1 `"A"`, and
after running `["1 A"]` the current level-1 label is `lastH1 ["1 A"]`. -/
theorem insertion_under_current_ancestors_witness :
    stepP ⟨[], none, none⟩ "1.1 X".toList = some ⟨[], none, none⟩ ∧
    stepP ⟨[("A".toList, [])], some "A".toList, none⟩ "1.1 B".toList
      = some ⟨dictSet [("A".toList, [])] "A".toList (dictSet [] "B".toList []),
          some "A".toList, some "B".toList⟩ ∧
    (⟨[("A".toList, [])], some "A".toList, none⟩ : State).h1 = lastH1 ["1 A".toList] := by
  refine ⟨?_, ?_, ?_⟩
  · exact (insertion_under_current_ancestors.1 ⟨[], none, none⟩ "1.1 X".toList
      "X".toList (by decide)).1 rfl
  · exact (insertion_under_current_ancestors.1 ⟨[("A".toList, [])], some "A".toList, none⟩
      "1.1 B".toList "B".toList (by decide)).2 _ _ rfl (by decide) (by decide)
  · exact insertion_under_current_ancestors.2.2 ["1 A".toList] _ (by decide)

/-- C3: the input `"1 Introduction"`, `"1.1 Background"`, `"1.1.1 History"`
produces the nested mapping
`{"Introduction": {"Background": {"History": {}}}}`. -/
theorem intro_background_history_example :
    extract_headings ["1 Introduction".toList, "1.1 Background".toList,
        "1.1.1 History".toList]
      = some [("Introduction".toList,
          [("Background".toList, [("History".toList, [])])])] := by decide

/-- C4: when no paragraph's stripped text matches any of the three level
patterns, the extractor returns the empty mapping. -/
theorem no_heading_input_empty_output (ps : List Str)
    (h : ∀ p ∈ ps, matchH1 (pyStrip p) = none ∧ matchH2 (pyStrip p) = none ∧
      matchH3 (pyStrip p) = none) :
    extract_headings ps = some [] := by
  rw [extract_headings, runSteps_skipAll h initState]
  rfl

/-- Witness for C4: two non-heading paragraphs yield the empty mapping. -/
theorem no_heading_input_empty_output_witness :
    extract_headings ["hello".toList, "  ".toList] = some [] :=
  no_heading_input_empty_output _ (by decide)

/-- C5: a level-2 heading met before any level-1 heading is dropped with no
effect on the result (deleting it from the input changes nothing), and the
input consisting only of `"1.1 Orphan"` yields the empty mapping. -/
theorem orphan_level2_dropped (pre post : List Str) (p l : Str)
    (hpre : ∀ q ∈ pre, matchH1 (pyStrip q) = none)
    (hp : matchH2 (pyStrip p) = some l) :
    extract_headings (pre ++ p :: post) = extract_headings (pre ++ post)
  ∧ extract_headings ["1.1 Orphan".toList] = some [] := by
  constructor
  · rw [extract_headings, extract_headings, runSteps_append, runSteps_append,
      runSteps_noH1 hpre]
    simp only [Option.some_bind]
    rw [runSteps, stepP_h1none rfl (matchH1_eq_none_of_h2 hp)]
  · decide

/-- Witness for C5 at the concrete orphan input. -/
theorem orphan_level2_dropped_witness :
    extract_headings ["1.1 Orphan".toList] = extract_headings [] ∧
    extract_headings ["1.1 Orphan".toList] = some [] :=
  orphan_level2_dropped [] [] "1.1 Orphan".toList "Orphan".toList
    (by simp) (by decide)

/-- C6: a level-3 heading met while a current level-1 label is set but no
current level-2 label is set is dropped with no state change, and the input
`"1 A"`, `"1.1.1 B"` yields `{"A": {}}`. -/
theorem orphan_level3_dropped (s : State) (p l a : Str)
    (hm : matchH3 (pyStrip p) = some l) (h1 : s.h1 = some a) (h2 : s.h2 = none) :
    stepP s p = some s
  ∧ extract_headings ["1 A".toList, "1.1.1 B".toList] = some [("A".toList, [])] := by
  constructor
  · exact stepP_h3_orphan hm (by simp [h2, truthy])
  · decide

/-- Witness for C6 at the concrete input. -/
theorem orphan_level3_dropped_witness :
    stepP ⟨[("A".toList, [])], some "A".toList, none⟩ "1.1.1 B".toList
      = some ⟨[("A".toList, [])], some "A".toList, none⟩ ∧
    extract_headings ["1 A".toList, "1.1.1 B".toList] = some [("A".toList, [])] :=
  orphan_level3_dropped ⟨[("A".toList, [])], some "A".toList, none⟩
    "1.1.1 B".toList "B".toList "A".toList (by decide) rfl rfl

/-- C7: a level-1 heading whose label equals an existing top-level key
overwrites that key's entry with an empty mapping, discarding its previously
inserted level-2/level-3 children; in particular `"1 Intro"`, `"1.1 X"`,
`"1 Intro"` yields `{"Intro": {}}`. -/
theorem h1_reencounter_resets_children (s : State) (p l : Str)
    (hm : matchH1 (pyStrip p) = some l) :
    stepP s p = some ⟨dictSet s.dict l [], some l, s.h2⟩
  ∧ (∀ v, dictGet s.dict l = some v → dictGet (dictSet s.dict l []) l = some ([] : D2))
  ∧ extract_headings ["1 Intro".toList, "1.1 X".toList, "1 Intro".toList]
      = some [("Intro".toList, [])] := by
  refine ⟨stepP_h1 hm, fun v _ => dictGet_dictSet_self _ _ _, by decide⟩

/-- Witness for C7 at a state that already holds children under `"Intro"`. -/
theorem h1_reencounter_resets_children_witness :
    stepP ⟨[("Intro".toList, [("X".toList, [])])], some "Intro".toList, some "X".toList⟩
        "1 Intro".toList
      = some ⟨dictSet [("Intro".toList, [("X".toList, [])])] "Intro".toList [],
          some "Intro".toList, some "X".toList⟩ ∧
    dictGet (dictSet [("Intro".toList, [("X".toList, [])])] "Intro".toList [])
        "Intro".toList = some ([] : D2) := by
  have h := h1_reencounter_resets_children
    ⟨[("Intro".toList, [("X".toList, [])])], some "Intro".toList, some "X".toList⟩
    "1 Intro".toList "Intro".toList (by decide)
  exact ⟨h.1, h.2.1 [("X".toList, [])] (by decide)⟩

/-- C8: on any trimmed paragraph text at most one of the three anchored level
patterns matches, so classification does not depend on the priority order in
which the patterns are tested. -/
theorem patterns_mutually_exclusive (t : Str) :
    ((matchH1 t).isSome = true → matchH2 t = none ∧ matchH3 t = none)
  ∧ ((matchH2 t).isSome = true → matchH1 t = none ∧ matchH3 t = none)
  ∧ ((matchH3 t).isSome = true → matchH1 t = none ∧ matchH2 t = none)
  ∧ classifyText t = classifyRevOrder t := by
  refine ⟨?_, ?_, ?_, ?_⟩
  · intro h
    obtain ⟨l, hl⟩ := Option.isSome_iff_exists.mp h
    exact ⟨matchH2_eq_none_of_h1 hl, matchH3_eq_none_of_h1 hl⟩
  · intro h
    obtain ⟨l, hl⟩ := Option.isSome_iff_exists.mp h
    exact ⟨matchH1_eq_none_of_h2 hl, matchH3_eq_none_of_h2 hl⟩
  · intro h
    obtain ⟨l, hl⟩ := Option.isSome_iff_exists.mp h
    exact ⟨matchH1_eq_none_of_h3 hl, matchH2_eq_none_of_h3 hl⟩
  · rw [classifyText, classifyRevOrder]
    cases e1 : matchH1 t with
    | some l => rw [matchH2_eq_none_of_h1 e1, matchH3_eq_none_of_h1 e1]
    | none =>
      cases e2 : matchH2 t with
      | some l => rw [matchH3_eq_none_of_h2 e2]
      | none => cases e3 : matchH3 t <;> rfl

/-- Witness for C8 at the level-1 heading `"1 A"`. -/
theorem patterns_mutually_exclusive_witness :
    matchH2 "1 A".toList = none ∧ matchH3 "1 A".toList = none :=
  (patterns_mutually_exclusive "1 A".toList).1 (by decide)

/-- C9: blank or whitespace-only paragraphs have no effect: two inputs that
agree after deleting all paragraphs whose stripped text is empty produce the
same result, so inserting or removing such paragraphs anywhere leaves the
output unchanged. -/
theorem blank_paragraphs_no_effect (ps qs : List Str)
    (h : ps.filter (fun p => !(pyStrip p).isEmpty)
       = qs.filter (fun p => !(pyStrip p).isEmpty)) :
    extract_headings ps = extract_headings qs := by
  rw [extract_headings, extract_headings, ← runSteps_filterBlank ps initState,
    ← runSteps_filterBlank qs initState, h]

/-- Witness for C9: a whitespace-only paragraph can be deleted. -/
theorem blank_paragraphs_no_effect_witness :
    extract_headings ["1 A".toList, "  ".toList] = extract_headings ["1 A".toList] :=
  blank_paragraphs_no_effect _ _ (by decide)

/-- C10: every key of a successfully returned mapping, at every level, is a
nonempty string that neither starts nor ends with a whitespace character. -/
theorem extracted_labels_wellformed (ps : List Str) (d : D1)
    (h : extract_headings ps = some d) :
    ∀ k1 v1, (k1, v1) ∈ d → goodLabel k1 = true ∧
      ∀ k2 v2, (k2, v2) ∈ v1 → goodLabel k2 = true ∧
        ∀ k3 v3, (k3, v3) ∈ v2 → goodLabel k3 = true := by
  rw [extract_headings] at h
  cases e : runSteps initState ps with
  | none => rw [e] at h; cases h
  | some s1 =>
    rw [e] at h
    simp only [Option.map_some'] at h
    have hg : GoodD1 s1.dict := runSteps_good (by intro kv hkv; cases hkv) e
    injection h with h
    rw [h] at hg
    intro k1 v1 hm1
    obtain ⟨hk1, h2⟩ := hg (k1, v1) hm1
    refine ⟨hk1, ?_⟩
    intro k2 v2 hm2
    obtain ⟨hk2, h3⟩ := h2 (k2, v2) hm2
    exact ⟨hk2, fun k3 v3 hm3 => h3 (k3, v3) hm3⟩

/-- Witness for C10 at a one-heading input. -/
theorem extracted_labels_wellformed_witness :
    goodLabel "Introduction".toList = true :=
  (extracted_labels_wellformed ["1 Introduction".toList]
    [("Introduction".toList, [])] (by decide)
    "Introduction".toList [] (by decide)).1

end BKB
